import Mathlib

/-!
Verification of the configuration-reconciliation and state-sync trust-bootstrap
core of `start_node.py` (the gaia node provisioning script).

Python strings are embedded as `List Char`; Python exceptions escaping a
function are embedded as `Option` results (`none` = the call raises and the
caller aborts, so nothing is persisted).
-/

namespace Gaia

/-- A Python string, embedded as its list of characters. -/
abbrev PyStr := List Char

/-- `sepAtHead s` is true when the string `s` starts with the scheme
separator `"://"`.  Only the first three characters are inspected. -/
def sepAtHead : PyStr → Bool
  | c :: d :: e :: _ => decide (c = ':' ∧ d = '/' ∧ e = '/')
  | _ => false

/-- Python `"://" in addr`: does the string contain the scheme separator? -/
def hasSchemeSep : PyStr → Bool
  | [] => false
  | c :: rest => sepAtHead (c :: rest) || hasSchemeSep rest

/-- Python `addr.split("://")`: split on every non-overlapping occurrence of
the three character separator `"://"`, scanning left to right.  `acc` holds
the (reversed) characters of the current piece. -/
def splitScheme (acc : PyStr) : PyStr → List PyStr
  | x :: y :: z :: rest =>
    if x = ':' ∧ y = '/' ∧ z = '/' then
      acc.reverse :: splitScheme [] rest
    else
      splitScheme (x :: acc) (y :: z :: rest)
  | s => [acc.reverse ++ s]

/-- Python `s.split(c)` for a single-character separator `c`. -/
def splitOnChar (c : Char) (acc : PyStr) : PyStr → List PyStr
  | [] => [acc.reverse]
  | x :: rest =>
    if x == c then acc.reverse :: splitOnChar c [] rest
    else splitOnChar c (x :: acc) rest

/-- Python `s.rsplit(c, 1)`: split at the last occurrence of `c`.
`none` models the single-element result (no occurrence of `c`), which makes
the two-variable unpacking in the source raise `ValueError`. -/
def rsplitChar (ch : Char) : PyStr → Option (PyStr × PyStr)
  | [] => none
  | c :: rest =>
    match rsplitChar ch rest with
    | some (h, p) => some (c :: h, p)
    | none => if c == ch then some ([], rest) else none

/-- ASCII whitespace as stripped by Python `int()` before parsing. -/
def isPyWS (c : Char) : Bool :=
  (c == ' ') || (c == '\t') || (c == '\n') || (c == '\x0b') || (c == '\x0c') || (c == '\r')

/-- Strip leading and trailing whitespace (Python `str.strip()` as performed
implicitly by `int()`). -/
def stripPyWS (s : PyStr) : PyStr :=
  ((s.dropWhile isPyWS).reverse.dropWhile isPyWS).reverse

/-- Digit-run parser of Python `int()`: consumes decimal digits, allowing a
single underscore between two digits; `none` on any other character, on a
trailing underscore, or on a doubled underscore. -/
def digitsCore (acc : Nat) : PyStr → Option Nat
  | [] => some acc
  | c :: rest =>
    if c.isDigit then digitsCore (acc * 10 + (c.toNat - 48)) rest
    else if c == '_' then
      match rest with
      | [] => none
      | d :: rest2 =>
        if d.isDigit then digitsCore (acc * 10 + (d.toNat - 48)) rest2 else none
    else none

/-- The unsigned part of Python `int()`: a nonempty digit run that must start
with a digit (a leading underscore is rejected). -/
def pyIntDigits : PyStr → Option Nat
  | [] => none
  | c :: rest => if c.isDigit then digitsCore 0 (c :: rest) else none

/-- Python `int(s)` on a string: strip whitespace, optional single sign,
then a digit run.  `none` models the `ValueError`. -/
def pyInt? (s : PyStr) : Option Int :=
  match stripPyWS s with
  | [] => none
  | c :: rest =>
    if c == '+' then (pyIntDigits rest).map (fun n => (n : Int))
    else if c == '-' then (pyIntDigits rest).map (fun n => -(n : Int))
    else (pyIntDigits (c :: rest)).map (fun n => (n : Int))

/-- The decimal digit character for a value `0 ≤ k ≤ 9`. -/
def digitChar : Nat → Char
  | 0 => '0' | 1 => '1' | 2 => '2' | 3 => '3' | 4 => '4'
  | 5 => '5' | 6 => '6' | 7 => '7' | 8 => '8' | _ => '9'

/-- Fuelled decimal printer for naturals (fuel makes it structurally
recursive; `natToStr` supplies sufficient fuel). -/
def natToStrFuel : Nat → Nat → PyStr → PyStr
  | 0, _, acc => acc
  | fuel + 1, n, acc =>
    if n < 10 then digitChar n :: acc
    else natToStrFuel fuel (n / 10) (digitChar (n % 10) :: acc)

/-- Python `str(n)` for a natural number: canonical decimal digits. -/
def natToStr (n : Nat) : PyStr := natToStrFuel (n + 1) n []

/-- Python `str(v)` / f-string formatting of an integer: canonical decimal,
with a leading `-` for negative values. -/
def intToStr (v : Int) : PyStr :=
  if v < 0 then '-' :: natToStr v.natAbs else natToStr v.natAbs

/-- The value of a decimal digit string read left to right, starting from an
accumulator (specification device for `digitsCore`). -/
def strVal (a : Nat) (s : PyStr) : Nat :=
  s.foldl (fun x c => x * 10 + (c.toNat - 48)) a

/-- A well-formed address with an optional scheme prefix, a host part and a
canonically printed integer port (specification device for the round-trip
property of `increment_port`). -/
def mkAddr : Option PyStr → PyStr → Int → PyStr
  | none, host, v => host ++ ':' :: intToStr v
  | some p, host, v => p ++ ':' :: '/' :: '/' :: (host ++ ':' :: intToStr v)

/-- `increment_port` from `start_node.py`.

```
def increment_port(addr, offset):
    if not addr or offset == 0:
        return addr
    prefix = ""
    if "://" in addr:
        prefix, addr = addr.split("://")   # ValueError here is NOT caught
        prefix += "://"
    try:
        host, port = addr.rsplit(":", 1)
        new_port = int(port) + offset
        return f"{prefix}{host}:{new_port}"
    except ValueError:
        return f"{prefix}{addr}"
```

`none` models an uncaught `ValueError` (the two-variable unpacking of
`addr.split("://")` when the separator occurs more than once). -/
def increment_port (addr : PyStr) (offset : Int) : Option PyStr :=
  if addr = [] ∨ offset = 0 then some addr
  else
    let pr : Option (PyStr × PyStr) :=
      if hasSchemeSep addr then
        match splitScheme [] addr with
        | [p, rest] => some (p ++ (':' :: '/' :: '/' :: []), rest)
        | _ => none
      else some ([], addr)
    match pr with
    | none => none
    | some (pfx, a2) =>
      match rsplitChar ':' a2 with
      | none => some (pfx ++ a2)
      | some (host, port) =>
        match pyInt? port with
        | none => some (pfx ++ a2)
        | some v => some (pfx ++ host ++ ':' :: intToStr (v + offset))

/-! ## Trust-anchor resolver (`get_trust_settings`) -/

/-- The network as seen by the resolver: for a base URL, `status url` is the
latest block height obtained from `GET url/status` (`none` when the request,
the JSON decoding or the `int()` conversion raises), and `block url h` is the
block hash obtained from `GET url/block?height=h` (`none` when that chain of
operations raises). -/
structure World where
  status : PyStr → Option Int
  block : PyStr → Int → Option PyStr

/-- The endpoint loop of `get_trust_settings`: try each RPC base URL in
order; fetch the latest height, compute `trust_height = latest - 2000`, skip
the endpoint when `trust_height <= 0` (chain too young) or when either fetch
raises; return the first `(trust_height, hash)` found, `none` when every
endpoint fails. -/
def fetch_anchor (w : World) : List PyStr → Option (Int × PyStr)
  | [] => none
  | rpc :: rest =>
    match w.status rpc with
    | none => fetch_anchor w rest
    | some latest =>
      let trust_height := latest - 2000
      if trust_height ≤ 0 then fetch_anchor w rest
      else
        match w.block rpc trust_height with
        | none => fetch_anchor w rest
        | some h => some (trust_height, h)

/-- `get_trust_settings(rpc_servers_str)` from `start_node.py`: split the
comma-separated server list and run the endpoint loop. -/
def get_trust_settings (w : World) (rpc_servers_str : PyStr) : Option (Int × PyStr) :=
  fetch_anchor w (splitOnChar ',' [] rpc_servers_str)

/-! ## Configuration data model and reconciliation (`main`) -/

/-- The `SEEDS` module constant of `start_node.py`. -/
def SEEDS : PyStr :=
  "08ec17e86dac67b9da70deb20177655495a55407@provider-seed-01.ics-testnet.polypore.xyz:26656,4ea6e56300a2f37b90e58de5ee27d1c9065cf871@provider-seed-02.ics-testnet.polypore.xyz:26656".data

/-- The `MIN_GAS_PRICE` module constant. -/
def MIN_GAS_PRICE : PyStr := "0.005stake".data

/-- The fixed state-sync trust window written by the script (`"168h"`). -/
def TRUST_PERIOD : PyStr := "168h".data

/-- Default used by `app_data['api'].get('address', ...)`. -/
def DEFAULT_API_ADDR : PyStr := "tcp://0.0.0.0:1317".data

/-- Default used by `app_data['grpc'].get('address', ...)`. -/
def DEFAULT_GRPC_ADDR : PyStr := "0.0.0.0:9090".data

/-- Default used by `app_data['grpc-web'].get('address', ...)`. -/
def DEFAULT_GRPC_WEB_ADDR : PyStr := "0.0.0.0:9091".data

/-- `argparse` default of the `--port-offset` flag. -/
def default_port_offset : Int := 1000

/-- The port offset `main` actually runs with: the flag's value when the
operator supplies one, the `argparse` default `1000` otherwise. -/
def resolve_port_offset : Option Int → Int
  | none => default_port_offset
  | some k => k

/-- The keys of `config.toml` (the network/peer configuration file) that the
script reads or writes. -/
structure ConfigToml where
  rpc_laddr : PyStr
  rpc_pprof_laddr : PyStr
  p2p_laddr : PyStr
  p2p_seeds : PyStr
  p2p_persistent_peers : PyStr
  db_backend : PyStr
  statesync_enable : Bool
  statesync_rpc_servers : PyStr
  statesync_trust_height : Int
  statesync_trust_hash : PyStr
  statesync_trust_period : PyStr
  deriving Repr, DecidableEq

/-- The keys of `app.toml` (the application configuration file) that the
script reads or writes.  The three address sections are optional in the
source (`if 'api' in app_data`), and inside a present section the `address`
key itself may be absent (`.get('address', default)`); both levels are
modelled with `Option`. -/
structure AppToml where
  minimum_gas_prices : PyStr
  api : Option (Option PyStr)
  grpc : Option (Option PyStr)
  grpc_web : Option (Option PyStr)
  deriving Repr, DecidableEq

/-- The operator-supplied flags that the reconciliation logic reads. -/
structure Args where
  backend : PyStr
  state_sync_enable : Bool
  state_sync_rpc_servers : PyStr
  port_offset : Int
  deriving Repr, DecidableEq

/-- Step 1–2 of the full reconciliation: set the seed list, clear the
persistent-peer list, and record the requested backend. -/
def apply_peer_and_backend (a : Args) (cfg : ConfigToml) : ConfigToml :=
  { cfg with
    p2p_seeds := SEEDS
    p2p_persistent_peers := []
    db_backend := a.backend }

/-- Step 3 of the full reconciliation on `config.toml`: when the offset is
positive, shift the three listen addresses with `increment_port`.  `none`
models an uncaught `ValueError` escaping from `increment_port` (the run
aborts before the file is written). -/
def apply_port_offset_config (off : Int) (cfg : ConfigToml) : Option ConfigToml :=
  if 0 < off then
    match increment_port cfg.rpc_laddr off, increment_port cfg.rpc_pprof_laddr off,
        increment_port cfg.p2p_laddr off with
    | some r, some pp, some pl =>
      some { cfg with rpc_laddr := r, rpc_pprof_laddr := pp, p2p_laddr := pl }
    | _, _, _ => none
  else some cfg

/-- Step 4 of the full reconciliation: the state-sync section.  The source
tests the fetched pair with Python truthiness (`if trust_height and
trust_hash:`), so a zero height or an empty hash also disables the feature. -/
def apply_statesync (w : World) (a : Args) (cfg : ConfigToml) : ConfigToml :=
  if a.state_sync_enable then
    match get_trust_settings w a.state_sync_rpc_servers with
    | some (th, hsh) =>
      if th ≠ 0 ∧ hsh ≠ [] then
        { cfg with
          statesync_enable := true
          statesync_rpc_servers := a.state_sync_rpc_servers
          statesync_trust_height := th
          statesync_trust_hash := hsh
          statesync_trust_period := TRUST_PERIOD }
      else { cfg with statesync_enable := false }
    | none => { cfg with statesync_enable := false }
  else
    { cfg with statesync_enable := false, statesync_rpc_servers := [] }

/-- The full `config.toml` rewrite of the init path (source lines 206–243),
in source order: seeds/peers, backend, port offset, state sync. -/
def update_config_toml (w : World) (a : Args) (cfg : ConfigToml) : Option ConfigToml :=
  match apply_port_offset_config a.port_offset (apply_peer_and_backend a cfg) with
  | none => none
  | some cfg2 => some (apply_statesync w a cfg2)

/-- One optional `app.toml` address section under a positive port offset:
an absent section is left untouched, a present section gets its `address`
key set to the shifted value of the existing address (or of the default when
the key is absent).  `none` models an uncaught `ValueError`. -/
def shift_section (sec : Option (Option PyStr)) (dflt : PyStr) (off : Int) :
    Option (Option (Option PyStr)) :=
  match sec with
  | none => some none
  | some addr? =>
    match increment_port (addr?.getD dflt) off with
    | none => none
    | some v => some (some (some v))

/-- The `app.toml` rewrite of the init path (source lines 247–262): set the
minimum gas price, then shift the three optional address sections when the
offset is positive. -/
def update_app_toml (a : Args) (app0 : AppToml) : Option AppToml :=
  let app1 := { app0 with minimum_gas_prices := MIN_GAS_PRICE }
  if 0 < a.port_offset then
    match shift_section app1.api DEFAULT_API_ADDR a.port_offset with
    | none => none
    | some api2 =>
      match shift_section app1.grpc DEFAULT_GRPC_ADDR a.port_offset with
      | none => none
      | some grpc2 =>
        match shift_section app1.grpc_web DEFAULT_GRPC_WEB_ADDR a.port_offset with
        | none => none
        | some gw2 => some { app1 with api := api2, grpc := grpc2, grpc_web := gw2 }
  else some app1

/-- The whole full-reconciliation (init) path over both configuration files.
(In the source `config.toml` is flushed to disk before `app.toml` is
processed; the pair is the state persisted by a run that completes.) -/
def full_init_config (w : World) (a : Args) (cfg : ConfigToml) (app : AppToml) :
    Option (ConfigToml × AppToml) :=
  match update_config_toml w a cfg with
  | none => none
  | some cfg2 =>
    match update_app_toml a app with
    | none => none
    | some app2 => some (cfg2, app2)

/-- The backend-only path for an already-initialized home (source lines
266–274): rewrite the file only when the stored backend differs from the
requested one.  The boolean records whether the file was written. -/
def reconcile_backend (backend : PyStr) (cfg : ConfigToml) : ConfigToml × Bool :=
  if cfg.db_backend ≠ backend then ({ cfg with db_backend := backend }, true)
  else (cfg, false)

/-! ## Concrete fixtures used by witnesses and counterexamples -/

/-- A network in which endpoint `E1` reports latest height `1500` (so its
computed trust height is negative), endpoint `E2` reports `50000`, and block
hashes are served at height `48000`. -/
def worldA : World where
  status u := if u = "E1".data then some 1500 else if u = "E2".data then some 50000 else none
  block _ h := if h = 48000 then some "HASH".data else none

/-- A network in which every request fails. -/
def worldDead : World where
  status _ := none
  block _ _ := none

/-- A concrete freshly-initialized `config.toml` content. -/
def cfgA : ConfigToml where
  rpc_laddr := "tcp://127.0.0.1:26657".data
  rpc_pprof_laddr := "localhost:6060".data
  p2p_laddr := "tcp://0.0.0.0:26656".data
  p2p_seeds := "".data
  p2p_persistent_peers := "oldpeer".data
  db_backend := "goleveldb".data
  statesync_enable := false
  statesync_rpc_servers := "".data
  statesync_trust_height := 0
  statesync_trust_hash := "".data
  statesync_trust_period := "".data

/-- A concrete freshly-initialized `app.toml` content. -/
def appA : AppToml where
  minimum_gas_prices := "0stake".data
  api := some (some "tcp://0.0.0.0:1317".data)
  grpc := some (some "0.0.0.0:9090".data)
  grpc_web := some (some "0.0.0.0:9091".data)

/-- A concrete flag set: state sync requested against `E1,E2`. -/
def argsA : Args where
  backend := "memdb".data
  state_sync_enable := true
  state_sync_rpc_servers := "E1,E2".data
  port_offset := 1000

/-- A concrete flag set for a run in which the operator supplies no
`--port-offset` flag: the offset is the `argparse` default. -/
def argsNoFlag : Args where
  backend := "memdb".data
  state_sync_enable := false
  state_sync_rpc_servers := "".data
  port_offset := resolve_port_offset none

/-! ## Lemmas about decimal printing and Python `int()` -/

theorem isDigit_ne (c x : Char) (h : c.isDigit = true) (hx : x.isDigit = false) : c ≠ x := by
  intro e
  rw [e, hx] at h
  cases h

theorem isDigit_not_ws (c : Char) (h : c.isDigit = true) : isPyWS c = false := by
  unfold isPyWS
  have h1 := isDigit_ne c ' ' h (by decide)
  have h2 := isDigit_ne c '\t' h (by decide)
  have h3 := isDigit_ne c '\n' h (by decide)
  have h4 := isDigit_ne c '\x0b' h (by decide)
  have h5 := isDigit_ne c '\x0c' h (by decide)
  have h6 := isDigit_ne c '\r' h (by decide)
  simp [h1, h2, h3, h4, h5, h6]

theorem digitChar_isDigit (k : Nat) (h : k < 10) : (digitChar k).isDigit = true := by
  interval_cases k <;> decide

theorem digitChar_val (k : Nat) (h : k < 10) : (digitChar k).toNat - 48 = k := by
  interval_cases k <;> decide

theorem natToStrFuel_append (f : Nat) : ∀ (n : Nat) (acc : PyStr),
    natToStrFuel f n acc = natToStrFuel f n [] ++ acc := by
  induction f with
  | zero => intro n acc; simp [natToStrFuel]
  | succ f ih =>
    intro n acc
    by_cases h : n < 10
    · simp [natToStrFuel, if_pos h]
    · simp only [natToStrFuel, if_neg h]
      rw [ih (n / 10) (digitChar (n % 10) :: acc), ih (n / 10) [digitChar (n % 10)]]
      simp

theorem natToStrFuel_irrel (f : Nat) : ∀ (g n : Nat) (acc : PyStr), n < f → n < g →
    natToStrFuel f n acc = natToStrFuel g n acc := by
  induction f with
  | zero => intro g n acc h; omega
  | succ f ih =>
    intro g n acc hf hg
    cases g with
    | zero => omega
    | succ g =>
      by_cases h : n < 10
      · simp [natToStrFuel, if_pos h]
      · simp only [natToStrFuel, if_neg h]
        have hlt : n / 10 < n := Nat.div_lt_self (by omega) (by omega)
        exact ih g (n / 10) _ (by omega) (by omega)

theorem natToStr_lt (n : Nat) (h : n < 10) : natToStr n = [digitChar n] := by
  unfold natToStr natToStrFuel
  rw [if_pos h]

theorem natToStr_ge (n : Nat) (h : 10 ≤ n) :
    natToStr n = natToStr (n / 10) ++ [digitChar (n % 10)] := by
  have hlt : n / 10 < n := Nat.div_lt_self (by omega) (by omega)
  unfold natToStr
  conv_lhs => rw [natToStrFuel]
  rw [if_neg (by omega)]
  rw [natToStrFuel_irrel n (n / 10 + 1) (n / 10) _ (by omega) (by omega)]
  rw [natToStrFuel_append (n / 10 + 1) (n / 10) [digitChar (n % 10)]]

theorem natToStr_ne_nil (n : Nat) : natToStr n ≠ [] := by
  by_cases h : n < 10
  · rw [natToStr_lt n h]; simp
  · rw [natToStr_ge n (by omega)]; simp

theorem natToStr_all_digits (n : Nat) : ∀ c ∈ natToStr n, c.isDigit = true := by
  induction n using Nat.strong_induction_on with
  | _ n ih =>
    by_cases h : n < 10
    · rw [natToStr_lt n h]
      intro c hc
      rw [List.mem_singleton] at hc
      rw [hc]
      exact digitChar_isDigit n h
    · rw [natToStr_ge n (by omega)]
      intro c hc
      rcases List.mem_append.mp hc with h1 | h1
      · exact ih (n / 10) (Nat.div_lt_self (by omega) (by omega)) c h1
      · rw [List.mem_singleton] at h1
        rw [h1]
        exact digitChar_isDigit (n % 10) (Nat.mod_lt _ (by omega))

theorem strVal_append (a : Nat) (xs ys : PyStr) :
    strVal a (xs ++ ys) = strVal (strVal a xs) ys := by
  simp [strVal]

theorem strVal_natToStr (n : Nat) : strVal 0 (natToStr n) = n := by
  induction n using Nat.strong_induction_on with
  | _ n ih =>
    by_cases h : n < 10
    · rw [natToStr_lt n h]
      simp [strVal, digitChar_val n h]
    · rw [natToStr_ge n (by omega), strVal_append,
        ih (n / 10) (Nat.div_lt_self (by omega) (by omega))]
      have := digitChar_val (n % 10) (Nat.mod_lt _ (by omega))
      simp [strVal, this]
      omega

theorem digitsCore_digits : ∀ (s : PyStr) (a : Nat), (∀ c ∈ s, c.isDigit = true) →
    digitsCore a s = some (strVal a s) := by
  intro s
  induction s with
  | nil => intro a h; simp [digitsCore, strVal]
  | cons c rest ih =>
    intro a h
    have hc : c.isDigit = true := h c (List.mem_cons_self c rest)
    rw [digitsCore.eq_def]
    simp only [hc, if_true]
    rw [ih _ (fun x hx => h x (List.mem_cons_of_mem c hx))]
    simp [strVal]

theorem pyIntDigits_natToStr (n : Nat) : pyIntDigits (natToStr n) = some n := by
  rcases List.exists_cons_of_ne_nil (natToStr_ne_nil n) with ⟨c, rest, hc⟩
  have hcd : c.isDigit = true := by
    apply natToStr_all_digits n
    rw [hc]
    exact List.mem_cons_self c rest
  rw [hc]
  simp only [pyIntDigits, if_pos hcd]
  rw [← hc, digitsCore_digits (natToStr n) 0 (natToStr_all_digits n), strVal_natToStr]

theorem dropWhile_ws_id (s : PyStr) (h : ∀ c ∈ s, isPyWS c = false) :
    s.dropWhile isPyWS = s := by
  cases s with
  | nil => rfl
  | cons c rest =>
    rw [List.dropWhile_cons, h c (List.mem_cons_self c rest)]
    simp

theorem stripPyWS_id (s : PyStr) (h : ∀ c ∈ s, isPyWS c = false) : stripPyWS s = s := by
  unfold stripPyWS
  rw [dropWhile_ws_id s h, dropWhile_ws_id s.reverse (by
    intro c hc
    exact h c (List.mem_reverse.mp hc))]
  exact List.reverse_reverse s

theorem intToStr_mem (v : Int) : ∀ c ∈ intToStr v, c.isDigit = true ∨ c = '-' := by
  unfold intToStr
  split
  · intro c hc
    rcases List.mem_cons.mp hc with h1 | h1
    · exact Or.inr h1
    · exact Or.inl (natToStr_all_digits _ c h1)
  · intro c hc
    exact Or.inl (natToStr_all_digits _ c hc)

theorem intToStr_no_sep_chars (v : Int) : ∀ c ∈ intToStr v, c ≠ ':' ∧ c ≠ '/' := by
  intro c hc
  rcases intToStr_mem v c hc with h | h
  · exact ⟨isDigit_ne c ':' h (by decide), isDigit_ne c '/' h (by decide)⟩
  · rw [h]
    exact ⟨by decide, by decide⟩

theorem pyInt?_intToStr (v : Int) : pyInt? (intToStr v) = some v := by
  have hws : ∀ c ∈ intToStr v, isPyWS c = false := by
    intro c hc
    rcases intToStr_mem v c hc with h | h
    · exact isDigit_not_ws c h
    · rw [h]; decide
  rw [pyInt?.eq_def, stripPyWS_id _ hws]
  by_cases hv : v < 0
  · rw [show intToStr v = '-' :: natToStr v.natAbs from by unfold intToStr; rw [if_pos hv]]
    have hv' : -((v.natAbs : Nat) : Int) = v := by omega
    simp [pyIntDigits_natToStr, hv']
    rw [abs_of_neg hv, neg_neg]
  · rw [show intToStr v = natToStr v.natAbs from by unfold intToStr; rw [if_neg hv]]
    rcases List.exists_cons_of_ne_nil (natToStr_ne_nil v.natAbs) with ⟨c, rest, hc⟩
    have hcd : c.isDigit = true := by
      apply natToStr_all_digits
      rw [hc]
      exact List.mem_cons_self c rest
    have h1 : (c == '+') = false := beq_eq_false_iff_ne.mpr (isDigit_ne c '+' hcd (by decide))
    have h2 : (c == '-') = false := beq_eq_false_iff_ne.mpr (isDigit_ne c '-' hcd (by decide))
    have hv' : ((v.natAbs : Nat) : Int) = v := by omega
    rw [hc]
    simp [h1, h2, ← hc, pyIntDigits_natToStr, hv']

theorem intToStr_ne_nil (v : Int) : intToStr v ≠ [] := by
  unfold intToStr
  split
  · simp
  · exact natToStr_ne_nil _

/-! ## Lemmas about the scheme separator, splitting and rsplitting -/

theorem sepAtHead_cons3 (a b c : Char) (r : PyStr) :
    sepAtHead (a :: b :: c :: r) = decide (a = ':' ∧ b = '/' ∧ c = '/') := rfl

theorem hasSchemeSep_cons (c : Char) (rest : PyStr) :
    hasSchemeSep (c :: rest) = (sepAtHead (c :: rest) || hasSchemeSep rest) := rfl

theorem hasSchemeSep_one (c : Char) : hasSchemeSep [c] = false := rfl

theorem hasSchemeSep_two (c d : Char) : hasSchemeSep [c, d] = false := rfl

theorem no_colon_no_sep (s : PyStr) (h : ∀ x ∈ s, x ≠ ':') : hasSchemeSep s = false := by
  induction s with
  | nil => rfl
  | cons c rest ih =>
    have hc : c ≠ ':' := h c (List.mem_cons_self c rest)
    have hr := ih (fun x hx => h x (List.mem_cons_of_mem c hx))
    rw [hasSchemeSep_cons, hr, Bool.or_false]
    cases rest with
    | nil => rfl
    | cons d r2 =>
      cases r2 with
      | nil => rfl
      | cons e r3 =>
        rw [sepAtHead_cons3]
        simp [hc]

theorem hasSchemeSep_append_port (host port : PyStr) (hh : hasSchemeSep host = false)
    (hp : ∀ c ∈ port, c ≠ ':' ∧ c ≠ '/') : hasSchemeSep (host ++ ':' :: port) = false := by
  induction host with
  | nil =>
    rw [List.nil_append, hasSchemeSep_cons,
      no_colon_no_sep port (fun x hx => (hp x hx).1), Bool.or_false]
    cases port with
    | nil => rfl
    | cons p0 pr =>
      cases pr with
      | nil => rfl
      | cons p1 pr2 =>
        rw [sepAtHead_cons3]
        have : p0 ≠ '/' := (hp p0 (List.mem_cons_self p0 (p1 :: pr2))).2
        simp [this]
  | cons c h' ih =>
    rw [hasSchemeSep_cons] at hh
    rcases Bool.or_eq_false_iff.mp hh with ⟨hh1, hh2⟩
    rw [List.cons_append, hasSchemeSep_cons, ih hh2, Bool.or_false]
    cases h' with
    | nil =>
      cases port with
      | nil => rfl
      | cons p0 pr =>
        rw [show (c :: ([] ++ ':' :: p0 :: pr) : PyStr) = c :: ':' :: p0 :: pr from rfl,
          sepAtHead_cons3]
        simp
    | cons x h2 =>
      cases h2 with
      | nil =>
        rw [show (c :: ([x] ++ ':' :: port) : PyStr) = c :: x :: ':' :: port from rfl,
          sepAtHead_cons3]
        simp
      | cons y h3 =>
        rw [show (c :: ((x :: y :: h3) ++ ':' :: port) : PyStr)
            = c :: x :: y :: (h3 ++ ':' :: port) from rfl,
          sepAtHead_cons3]
        rw [sepAtHead_cons3] at hh1
        exact hh1

theorem hasSchemeSep_append_sep (p rest : PyStr) :
    hasSchemeSep (p ++ ':' :: '/' :: '/' :: rest) = true := by
  induction p with
  | nil =>
    rw [List.nil_append, hasSchemeSep_cons, sepAtHead_cons3]
    simp
  | cons c p' ih =>
    rw [List.cons_append, hasSchemeSep_cons, ih, Bool.or_true]

theorem splitScheme_cons3 (acc : PyStr) (x y z : Char) (r : PyStr) :
    splitScheme acc (x :: y :: z :: r) =
      if x = ':' ∧ y = '/' ∧ z = '/' then acc.reverse :: splitScheme [] r
      else splitScheme (x :: acc) (y :: z :: r) := rfl

theorem splitScheme_nil (acc : PyStr) : splitScheme acc [] = [acc.reverse] := by
  show [acc.reverse ++ []] = [acc.reverse]
  simp

theorem splitScheme_one (acc : PyStr) (c : Char) : splitScheme acc [c] = [acc.reverse ++ [c]] := rfl

theorem splitScheme_two (acc : PyStr) (c d : Char) :
    splitScheme acc [c, d] = [acc.reverse ++ [c, d]] := rfl

theorem splitScheme_no_sep (s : PyStr) : hasSchemeSep s = false →
    ∀ acc, splitScheme acc s = [acc.reverse ++ s] := by
  induction s with
  | nil => intro _ acc; rw [splitScheme_nil]; simp
  | cons x s' ih =>
    intro h acc
    rw [hasSchemeSep_cons] at h
    rcases Bool.or_eq_false_iff.mp h with ⟨h1, h2⟩
    cases s' with
    | nil => rw [splitScheme_one]
    | cons y s2 =>
      cases s2 with
      | nil => rw [splitScheme_two]
      | cons z r =>
        rw [sepAtHead_cons3] at h1
        rw [splitScheme_cons3, if_neg (of_decide_eq_false h1), ih h2 (x :: acc)]
        simp

theorem splitScheme_sep (p : PyStr) : hasSchemeSep p = false →
    ∀ (rest : PyStr) (acc : PyStr), hasSchemeSep rest = false →
      splitScheme acc (p ++ ':' :: '/' :: '/' :: rest) = [acc.reverse ++ p, rest] := by
  induction p with
  | nil =>
    intro _ rest acc hr
    rw [List.nil_append, splitScheme_cons3, if_pos ⟨rfl, rfl, rfl⟩,
      splitScheme_no_sep rest hr []]
    simp
  | cons a p' ih =>
    intro h rest acc hr
    rw [hasSchemeSep_cons] at h
    rcases Bool.or_eq_false_iff.mp h with ⟨h1, h2⟩
    cases p' with
    | nil =>
      rw [show (a :: [] ++ ':' :: '/' :: '/' :: rest : PyStr)
          = a :: ':' :: '/' :: '/' :: rest from rfl]
      rw [splitScheme_cons3, if_neg (by rintro ⟨-, hx, -⟩; exact absurd hx (by decide))]
      rw [splitScheme_cons3, if_pos ⟨rfl, rfl, rfl⟩, splitScheme_no_sep rest hr []]
      simp
    | cons x p2 =>
      cases p2 with
      | nil =>
        rw [show (a :: [x] ++ ':' :: '/' :: '/' :: rest : PyStr)
            = a :: x :: ':' :: '/' :: '/' :: rest from rfl]
        rw [splitScheme_cons3, if_neg (by rintro ⟨-, -, hx⟩; exact absurd hx (by decide))]
        have := ih h2 rest (a :: acc) hr
        rw [show ([x] ++ ':' :: '/' :: '/' :: rest : PyStr)
            = x :: ':' :: '/' :: '/' :: rest from rfl] at this
        rw [this]
        simp
      | cons y p3 =>
        rw [show ((a :: x :: y :: p3) ++ ':' :: '/' :: '/' :: rest : PyStr)
            = a :: x :: y :: (p3 ++ ':' :: '/' :: '/' :: rest) from rfl]
        rw [sepAtHead_cons3] at h1
        rw [splitScheme_cons3, if_neg (of_decide_eq_false h1)]
        have := ih h2 rest (a :: acc) hr
        rw [show ((x :: y :: p3) ++ ':' :: '/' :: '/' :: rest : PyStr)
            = x :: y :: (p3 ++ ':' :: '/' :: '/' :: rest) from rfl] at this
        rw [this]
        simp

theorem splitScheme_pos (s : PyStr) : ∀ acc, 1 ≤ (splitScheme acc s).length := by
  induction s with
  | nil => intro acc; rw [splitScheme_nil]; simp
  | cons x s' ih =>
    intro acc
    cases s' with
    | nil => rw [splitScheme_one]; simp
    | cons y s2 =>
      cases s2 with
      | nil => rw [splitScheme_two]; simp
      | cons z r =>
        rw [splitScheme_cons3]
        split
        · simp
        · exact ih (x :: acc)

theorem splitScheme_single (s : PyStr) : ∀ acc x, splitScheme acc s = [x] →
    x = acc.reverse ++ s := by
  induction s with
  | nil =>
    intro acc x hx
    rw [splitScheme_nil] at hx
    simp at hx
    simp [hx]
  | cons a s' ih =>
    intro acc x hx
    cases s' with
    | nil =>
      rw [splitScheme_one] at hx
      simp at hx
      rw [hx]
    | cons y s2 =>
      cases s2 with
      | nil =>
        rw [splitScheme_two] at hx
        simp at hx
        rw [hx]
      | cons z r =>
        rw [splitScheme_cons3] at hx
        split at hx
        · have h1 : splitScheme [] r = [] := by
            simp at hx
            exact hx.2
          have h2 := splitScheme_pos r []
          rw [h1] at h2
          simp at h2
        · have := ih (a :: acc) x hx
          rw [this]
          simp

theorem splitScheme_reassemble_gen (s : PyStr) : ∀ acc p rest, splitScheme acc s = [p, rest] →
    acc.reverse ++ s = p ++ ':' :: '/' :: '/' :: rest := by
  induction s with
  | nil =>
    intro acc p rest hx
    rw [splitScheme_nil] at hx
    simp at hx
  | cons a s' ih =>
    intro acc p rest hx
    cases s' with
    | nil =>
      rw [splitScheme_one] at hx
      simp at hx
    | cons y s2 =>
      cases s2 with
      | nil =>
        rw [splitScheme_two] at hx
        simp at hx
      | cons z r =>
        rw [splitScheme_cons3] at hx
        split at hx
        · rename_i hcond
          obtain ⟨h1, h2, h3⟩ := hcond
          subst h1
          subst h2
          subst h3
          simp only [List.cons.injEq] at hx
          obtain ⟨hp1, hp2⟩ := hx
          have hr := splitScheme_single r [] rest hp2
          simp only [List.reverse_nil, List.nil_append] at hr
          subst hp1
          subst hr
          rfl
        · have := ih (a :: acc) p rest hx
          rw [← this]
          simp

theorem splitScheme_reassemble (addr p rest : PyStr) (h : splitScheme [] addr = [p, rest]) :
    addr = p ++ ':' :: '/' :: '/' :: rest := by
  have := splitScheme_reassemble_gen addr [] p rest h
  simpa using this

theorem splitScheme_len2 (s : PyStr) : hasSchemeSep s = true →
    ∀ acc, 2 ≤ (splitScheme acc s).length := by
  induction s with
  | nil => intro h; exact absurd h (by decide)
  | cons x s' ih =>
    intro h acc
    cases s' with
    | nil => rw [hasSchemeSep_one] at h; cases h
    | cons y s2 =>
      cases s2 with
      | nil => rw [hasSchemeSep_two] at h; cases h
      | cons z r =>
        rw [splitScheme_cons3]
        by_cases hc : x = ':' ∧ y = '/' ∧ z = '/'
        · rw [if_pos hc]
          have := splitScheme_pos r []
          simp only [List.length_cons]
          omega
        · rw [if_neg hc]
          apply ih _ (x :: acc)
          rw [hasSchemeSep_cons, sepAtHead_cons3, decide_eq_false hc] at h
          simpa using h

theorem rsplitChar_none (ch : Char) (s : PyStr) (h : ∀ x ∈ s, x ≠ ch) :
    rsplitChar ch s = none := by
  induction s with
  | nil => rfl
  | cons c rest ih =>
    have hr := ih (fun x hx => h x (List.mem_cons_of_mem c hx))
    have hc : (c == ch) = false := beq_eq_false_iff_ne.mpr (h c (List.mem_cons_self c rest))
    rw [rsplitChar.eq_def]
    simp [hr, hc]

theorem rsplitChar_last (port : PyStr) (hp : ∀ x ∈ port, x ≠ ':') :
    ∀ host, rsplitChar ':' (host ++ ':' :: port) = some (host, port) := by
  intro host
  induction host with
  | nil =>
    rw [List.nil_append, rsplitChar.eq_def]
    simp [rsplitChar_none ':' port hp]
  | cons c h' ih =>
    rw [List.cons_append, rsplitChar.eq_def]
    simp [ih]

/-! ## Lemmas about `increment_port` -/

theorem increment_port_zero (addr : PyStr) : increment_port addr 0 = some addr := by
  unfold increment_port
  rw [if_pos (Or.inr rfl)]

theorem mkAddr_ne_nil (opfx : Option PyStr) (host : PyStr) (v : Int) :
    mkAddr opfx host v ≠ [] := by
  cases opfx <;> simp [mkAddr]

theorem increment_port_mkAddr (opfx : Option PyStr) (host : PyStr) (v n : Int) (hn : n ≠ 0)
    (h1 : ∀ p, opfx = some p → hasSchemeSep p = false)
    (h2 : hasSchemeSep host = false) :
    increment_port (mkAddr opfx host v) n = some (mkAddr opfx host (v + n)) := by
  have hport := intToStr_no_sep_chars v
  have hnosep : hasSchemeSep (host ++ ':' :: intToStr v) = false :=
    hasSchemeSep_append_port host (intToStr v) h2 hport
  have hrsplit : rsplitChar ':' (host ++ ':' :: intToStr v) = some (host, intToStr v) :=
    rsplitChar_last (intToStr v) (fun x hx => (hport x hx).1) host
  unfold increment_port
  rw [if_neg (by push_neg; exact ⟨mkAddr_ne_nil opfx host v, hn⟩)]
  cases opfx with
  | none =>
    simp only [mkAddr]
    simp [hnosep, hrsplit, pyInt?_intToStr]
  | some p =>
    have hsep := hasSchemeSep_append_sep p (host ++ ':' :: intToStr v)
    have hsplit := splitScheme_sep p (h1 p rfl) (host ++ ':' :: intToStr v) [] hnosep
    simp only [List.reverse_nil, List.nil_append] at hsplit
    simp only [mkAddr]
    rw [show (p ++ ':' :: '/' :: '/' :: (host ++ ':' :: intToStr v) : PyStr)
        = p ++ ':' :: '/' :: '/' :: (host ++ ':' :: intToStr v) from rfl]
    simp [hsep, hsplit, hrsplit, pyInt?_intToStr, List.append_assoc]

/-! ## Lemmas about the reconciliation steps -/

theorem apply_statesync_p2p (w : World) (a : Args) (c : ConfigToml) :
    (apply_statesync w a c).p2p_seeds = c.p2p_seeds ∧
      (apply_statesync w a c).p2p_persistent_peers = c.p2p_persistent_peers := by
  unfold apply_statesync
  split
  · split
    · split <;> simp
    · simp
  · simp

theorem apply_port_offset_config_frame (off : Int) (c c' : ConfigToml)
    (h : apply_port_offset_config off c = some c') :
    c'.p2p_seeds = c.p2p_seeds ∧ c'.p2p_persistent_peers = c.p2p_persistent_peers ∧
      c'.db_backend = c.db_backend := by
  unfold apply_port_offset_config at h
  split at h
  · split at h
    · cases h; simp
    · cases h
  · cases h; simp

theorem apply_port_offset_config_shift (off : Int) (c c' : ConfigToml)
    (hpos : 0 < off) (h : apply_port_offset_config off c = some c') :
    increment_port c.rpc_laddr off = some c'.rpc_laddr ∧
      increment_port c.rpc_pprof_laddr off = some c'.rpc_pprof_laddr ∧
      increment_port c.p2p_laddr off = some c'.p2p_laddr := by
  unfold apply_port_offset_config at h
  rw [if_pos hpos] at h
  split at h
  · cases h; simp_all
  · cases h

theorem apply_port_offset_config_zero (off : Int) (c : ConfigToml) (hz : ¬0 < off) :
    apply_port_offset_config off c = some c := by
  unfold apply_port_offset_config
  rw [if_neg hz]

theorem apply_statesync_laddr (w : World) (a : Args) (c : ConfigToml) :
    (apply_statesync w a c).rpc_laddr = c.rpc_laddr ∧
      (apply_statesync w a c).rpc_pprof_laddr = c.rpc_pprof_laddr ∧
      (apply_statesync w a c).p2p_laddr = c.p2p_laddr := by
  unfold apply_statesync
  split
  · split
    · split <;> simp
    · simp
  · simp

theorem update_config_laddr_shift (w : World) (a : Args) (cfg cfg' : ConfigToml)
    (hpos : 0 < a.port_offset) (h : update_config_toml w a cfg = some cfg') :
    increment_port cfg.rpc_laddr a.port_offset = some cfg'.rpc_laddr ∧
      increment_port cfg.rpc_pprof_laddr a.port_offset = some cfg'.rpc_pprof_laddr ∧
      increment_port cfg.p2p_laddr a.port_offset = some cfg'.p2p_laddr := by
  unfold update_config_toml at h
  split at h
  · cases h
  · rename_i cfg2 hport
    cases h
    have hsh := apply_port_offset_config_shift a.port_offset (apply_peer_and_backend a cfg)
      cfg2 hpos hport
    have hla := apply_statesync_laddr w a cfg2
    refine ⟨?_, ?_, ?_⟩
    · rw [hla.1]; exact hsh.1
    · rw [hla.2.1]; exact hsh.2.1
    · rw [hla.2.2]; exact hsh.2.2

theorem update_config_laddr_zero (w : World) (a : Args) (cfg cfg' : ConfigToml)
    (hz : ¬0 < a.port_offset) (h : update_config_toml w a cfg = some cfg') :
    cfg'.rpc_laddr = cfg.rpc_laddr ∧ cfg'.rpc_pprof_laddr = cfg.rpc_pprof_laddr ∧
      cfg'.p2p_laddr = cfg.p2p_laddr := by
  unfold update_config_toml at h
  split at h
  · cases h
  · rename_i cfg2 hport
    cases h
    rw [apply_port_offset_config_zero a.port_offset _ hz] at hport
    cases hport
    have hla := apply_statesync_laddr w a (apply_peer_and_backend a cfg)
    exact ⟨hla.1, hla.2.1, hla.2.2⟩

theorem update_app_toml_pos (a : Args) (app app' : AppToml) (hpos : 0 < a.port_offset)
    (h : update_app_toml a app = some app') :
    shift_section app.api DEFAULT_API_ADDR a.port_offset = some app'.api ∧
      shift_section app.grpc DEFAULT_GRPC_ADDR a.port_offset = some app'.grpc ∧
      shift_section app.grpc_web DEFAULT_GRPC_WEB_ADDR a.port_offset = some app'.grpc_web := by
  unfold update_app_toml at h
  rw [if_pos hpos] at h
  split at h
  · cases h
  · split at h
    · cases h
    · split at h
      · cases h
      · cases h
        simp_all

theorem update_app_toml_nonpos (a : Args) (app app' : AppToml) (hz : ¬0 < a.port_offset)
    (h : update_app_toml a app = some app') :
    app'.api = app.api ∧ app'.grpc = app.grpc ∧ app'.grpc_web = app.grpc_web := by
  unfold update_app_toml at h
  rw [if_neg hz] at h
  cases h
  simp

theorem full_init_decomp (w : World) (a : Args) (cfg : ConfigToml) (app : AppToml)
    (cfg' : ConfigToml) (app' : AppToml)
    (h : full_init_config w a cfg app = some (cfg', app')) :
    update_config_toml w a cfg = some cfg' ∧ update_app_toml a app = some app' := by
  unfold full_init_config at h
  split at h
  · cases h
  · split at h
    · cases h
    · cases h
      exact ⟨by assumption, by assumption⟩

/-! ## Claim theorems -/

/-- Claim C1: the trust-anchor resolver tries endpoints in order; the first
endpoint whose status query yields a latest height `H` with `0 < H - 2000`
and whose block query at `H - 2000` yields a hash determines the result
`(H - 2000, hash)` — independently of all later endpoints, which are never
contacted; an endpoint that fails its status query, computes a non-positive
trust height (chain too young), or fails its block query is skipped and
resolution proceeds with the remaining endpoints. -/
theorem fetch_anchor_first_endpoint_wins (w : World) (rpc : PyStr) (rest : List PyStr) :
    (∀ H hsh, w.status rpc = some H → 0 < H - 2000 → w.block rpc (H - 2000) = some hsh →
        fetch_anchor w (rpc :: rest) = some (H - 2000, hsh))
    ∧ (w.status rpc = none → fetch_anchor w (rpc :: rest) = fetch_anchor w rest)
    ∧ (∀ H, w.status rpc = some H → H - 2000 ≤ 0 →
        fetch_anchor w (rpc :: rest) = fetch_anchor w rest)
    ∧ (∀ H, w.status rpc = some H → 0 < H - 2000 → w.block rpc (H - 2000) = none →
        fetch_anchor w (rpc :: rest) = fetch_anchor w rest) := by
  refine ⟨?_, ?_, ?_, ?_⟩
  · intro H hsh hs hpos hb
    unfold fetch_anchor
    rw [hs]
    simp only [if_neg (not_le.mpr hpos), hb]
  · intro hs
    conv_lhs => unfold fetch_anchor
    rw [hs]
  · intro H hs hle
    conv_lhs => unfold fetch_anchor
    rw [hs]
    simp only [if_pos hle]
  · intro H hs hpos hb
    conv_lhs => unfold fetch_anchor
    rw [hs]
    simp only [if_neg (not_le.mpr hpos), hb]

/-- Witness for C1, tracing the spec's end-to-end scenario: endpoint `E1`
reports latest height `1500` (trust height `-500 ≤ 0`, skipped), endpoint
`E2` reports `50000`, and the resolver returns `(48000, hash from E2)`. -/
theorem fetch_anchor_first_endpoint_wins_w :
    fetch_anchor worldA ["E1".data, "E2".data] = some (48000, "HASH".data) := by
  have h1 := (fetch_anchor_first_endpoint_wins worldA "E1".data ["E2".data]).2.2.1
    1500 (by decide) (by decide)
  have h2 := (fetch_anchor_first_endpoint_wins worldA "E2".data []).1
    50000 "HASH".data (by decide) (by decide) (by decide)
  rw [h1, h2]
  norm_num

/-- Claim C2: whenever trust-anchor resolution returns `NotFound` (every
endpoint failed), a completed full reconciliation persists
`statesync.enable = false`, whatever the operator's state-sync toggle was. -/
theorem statesync_disabled_on_notfound (w : World) (a : Args) (cfg cfg' : ConfigToml)
    (hnf : get_trust_settings w a.state_sync_rpc_servers = none)
    (h : update_config_toml w a cfg = some cfg') :
    cfg'.statesync_enable = false := by
  unfold update_config_toml at h
  split at h
  · cases h
  · cases h
    unfold apply_statesync
    split
    · rw [hnf]
    · simp

/-- Witness for C2: a run with state sync requested against a network in
which every request fails persists `statesync.enable = false`. -/
theorem statesync_disabled_on_notfound_w :
    ∃ cfg', update_config_toml worldDead argsA cfgA = some cfg' ∧
      cfg'.statesync_enable = false := by
  rcases hE : update_config_toml worldDead argsA cfgA with _ | cfg'
  · exact absurd hE (by decide)
  · exact ⟨cfg', rfl, statesync_disabled_on_notfound worldDead argsA cfgA cfg' (by decide) hE⟩

/-- Claim C6: the backend-only path is idempotent — after one run with a
given backend identifier, a second run with the same identifier changes
nothing and performs no write. -/
theorem backend_only_idempotent (b : PyStr) (cfg : ConfigToml) :
    reconcile_backend b (reconcile_backend b cfg).1 = ((reconcile_backend b cfg).1, false) := by
  unfold reconcile_backend
  split <;> simp

/-- Claim C7: on the backend-only path, a rerun requesting a different
backend identifier changes only the `db_backend` key; every listen address
and peer setting (and the whole state-sync section) is unchanged. -/
theorem backend_only_frame (b : PyStr) (cfg : ConfigToml) (hne : cfg.db_backend ≠ b) :
    (reconcile_backend b cfg).1.db_backend = b ∧
      (reconcile_backend b cfg).1.rpc_laddr = cfg.rpc_laddr ∧
      (reconcile_backend b cfg).1.rpc_pprof_laddr = cfg.rpc_pprof_laddr ∧
      (reconcile_backend b cfg).1.p2p_laddr = cfg.p2p_laddr ∧
      (reconcile_backend b cfg).1.p2p_seeds = cfg.p2p_seeds ∧
      (reconcile_backend b cfg).1.p2p_persistent_peers = cfg.p2p_persistent_peers ∧
      (reconcile_backend b cfg).1.statesync_enable = cfg.statesync_enable ∧
      (reconcile_backend b cfg).1.statesync_rpc_servers = cfg.statesync_rpc_servers ∧
      (reconcile_backend b cfg).1.statesync_trust_height = cfg.statesync_trust_height ∧
      (reconcile_backend b cfg).1.statesync_trust_hash = cfg.statesync_trust_hash ∧
      (reconcile_backend b cfg).1.statesync_trust_period = cfg.statesync_trust_period := by
  unfold reconcile_backend
  rw [if_pos hne]
  simp

/-- Witness for C7: rerunning on a home whose file stores `goleveldb` while
requesting `pebbledb` rewrites only the backend key. -/
theorem backend_only_frame_w :
    (reconcile_backend "pebbledb".data cfgA).1.db_backend = "pebbledb".data ∧
      (reconcile_backend "pebbledb".data cfgA).1.rpc_laddr = cfgA.rpc_laddr := by
  have h := backend_only_frame "pebbledb".data cfgA (by decide)
  exact ⟨h.1, h.2.1⟩

/-- Claim C8: a completed full reconciliation always persists the configured
seed list and an empty persistent-peer list, so `persistent_peers` is empty
whenever `seeds` is non-empty. -/
theorem full_reconciliation_seeds_exclusive (w : World) (a : Args) (cfg cfg' : ConfigToml)
    (h : update_config_toml w a cfg = some cfg') :
    cfg'.p2p_seeds = SEEDS ∧ cfg'.p2p_persistent_peers = [] := by
  unfold update_config_toml at h
  split at h
  · cases h
  · rename_i cfg2 hport
    cases h
    have hs := apply_statesync_p2p w a cfg2
    have hp := apply_port_offset_config_frame a.port_offset (apply_peer_and_backend a cfg) cfg2 hport
    refine ⟨?_, ?_⟩
    · rw [hs.1, hp.1]; rfl
    · rw [hs.2, hp.2.1]; rfl

/-- Witness for C8: the concrete full run persists the seed constant and an
empty persistent-peer list even though the prior file had a persistent peer. -/
theorem full_reconciliation_seeds_exclusive_w :
    ∃ cfg', update_config_toml worldA argsA cfgA = some cfg' ∧
      cfg'.p2p_seeds = SEEDS ∧ cfg'.p2p_persistent_peers = [] := by
  rcases hE : update_config_toml worldA argsA cfgA with _ | cfg'
  · exact absurd hE (by decide)
  · exact ⟨cfg', rfl, full_reconciliation_seeds_exclusive worldA argsA cfgA cfg' hE⟩

/-- Claim C10: when state sync is not requested, a completed full
reconciliation persists `statesync.enable = false` and clears
`statesync.rpc_servers` to the empty string. -/
theorem statesync_cleared_when_not_requested (w : World) (a : Args) (cfg cfg' : ConfigToml)
    (hreq : a.state_sync_enable = false)
    (h : update_config_toml w a cfg = some cfg') :
    cfg'.statesync_enable = false ∧ cfg'.statesync_rpc_servers = [] := by
  unfold update_config_toml at h
  split at h
  · cases h
  · cases h
    unfold apply_statesync
    rw [hreq]
    simp

/-- Counterexample to C5 as stated: an absent `--port-offset` flag does not
leave the addresses untouched — the flag defaults to `1000`, so a fresh
initialization run without any port-offset request rewrites
`rpc.laddr = tcp://127.0.0.1:26657` to `tcp://127.0.0.1:27657`. -/
theorem absent_offset_shifts_cex :
    resolve_port_offset none = 1000 ∧
      (full_init_config worldA argsNoFlag cfgA appA).map (fun pr => pr.1.rpc_laddr)
        = some "tcp://127.0.0.1:27657".data ∧
      cfgA.rpc_laddr = "tcp://127.0.0.1:26657".data ∧
      ("tcp://127.0.0.1:27657".data : PyStr) ≠ "tcp://127.0.0.1:26657".data := by
  decide

/-- Claim C5 (amended): on the full reconciliation path a positive requested
port offset shifts all six externally-reachable listen addresses (`rpc.laddr`,
`rpc.pprof_laddr`, `p2p.laddr`, `api.address`, `grpc.address`,
`grpc-web.address`) through the port shifter, and a zero (or negative) offset
leaves all six untouched; an absent flag, however, defaults to `1000` and
therefore shifts. -/
theorem full_init_port_shift (w : World) (a : Args) (cfg : ConfigToml) (app : AppToml)
    (cfg' : ConfigToml) (app' : AppToml)
    (h : full_init_config w a cfg app = some (cfg', app')) :
    (0 < a.port_offset →
      increment_port cfg.rpc_laddr a.port_offset = some cfg'.rpc_laddr ∧
      increment_port cfg.rpc_pprof_laddr a.port_offset = some cfg'.rpc_pprof_laddr ∧
      increment_port cfg.p2p_laddr a.port_offset = some cfg'.p2p_laddr ∧
      shift_section app.api DEFAULT_API_ADDR a.port_offset = some app'.api ∧
      shift_section app.grpc DEFAULT_GRPC_ADDR a.port_offset = some app'.grpc ∧
      shift_section app.grpc_web DEFAULT_GRPC_WEB_ADDR a.port_offset = some app'.grpc_web) ∧
    (a.port_offset ≤ 0 →
      cfg'.rpc_laddr = cfg.rpc_laddr ∧ cfg'.rpc_pprof_laddr = cfg.rpc_pprof_laddr ∧
      cfg'.p2p_laddr = cfg.p2p_laddr ∧
      app'.api = app.api ∧ app'.grpc = app.grpc ∧ app'.grpc_web = app.grpc_web) ∧
    0 < resolve_port_offset none := by
  obtain ⟨hc, ha⟩ := full_init_decomp w a cfg app cfg' app' h
  refine ⟨?_, ?_, by norm_num [resolve_port_offset, default_port_offset]⟩
  · intro hpos
    obtain ⟨s1, s2, s3⟩ := update_config_laddr_shift w a cfg cfg' hpos hc
    obtain ⟨s4, s5, s6⟩ := update_app_toml_pos a app app' hpos ha
    exact ⟨s1, s2, s3, s4, s5, s6⟩
  · intro hz
    have hz' : ¬0 < a.port_offset := by omega
    obtain ⟨z1, z2, z3⟩ := update_config_laddr_zero w a cfg cfg' hz' hc
    obtain ⟨z4, z5, z6⟩ := update_app_toml_nonpos a app app' hz' ha
    exact ⟨z1, z2, z3, z4, z5, z6⟩

/-- Witness for the amended C5: the concrete full run with offset `1000`
shifts the RPC listen address. -/
theorem full_init_port_shift_w :
    ∃ cfg' app', full_init_config worldA argsA cfgA appA = some (cfg', app') ∧
      increment_port cfgA.rpc_laddr argsA.port_offset = some cfg'.rpc_laddr := by
  rcases hE : full_init_config worldA argsA cfgA appA with _ | pr
  · exact absurd hE (by decide)
  · obtain ⟨cfg', app'⟩ := pr
    exact ⟨cfg', app', rfl,
      ((full_init_port_shift worldA argsA cfgA appA cfg' app' hE).1 (by decide)).1⟩

/-- Claim C9: with no `--port-offset` flag the offset defaults to `1000`,
which is positive, so a fresh initialization without any port-offset request
shifts every listen address of both configuration files by `1000`. -/
theorem default_port_offset_shifts (w : World) (a : Args) (cfg : ConfigToml) (app : AppToml)
    (cfg' : ConfigToml) (app' : AppToml)
    (hdef : a.port_offset = resolve_port_offset none)
    (h : full_init_config w a cfg app = some (cfg', app')) :
    resolve_port_offset none = 1000 ∧
      increment_port cfg.rpc_laddr 1000 = some cfg'.rpc_laddr ∧
      increment_port cfg.rpc_pprof_laddr 1000 = some cfg'.rpc_pprof_laddr ∧
      increment_port cfg.p2p_laddr 1000 = some cfg'.p2p_laddr ∧
      shift_section app.api DEFAULT_API_ADDR 1000 = some app'.api ∧
      shift_section app.grpc DEFAULT_GRPC_ADDR 1000 = some app'.grpc ∧
      shift_section app.grpc_web DEFAULT_GRPC_WEB_ADDR 1000 = some app'.grpc_web := by
  have h1000 : a.port_offset = 1000 := hdef
  obtain ⟨hc, ha⟩ := full_init_decomp w a cfg app cfg' app' h
  have hpos : 0 < a.port_offset := by rw [h1000]; norm_num
  obtain ⟨s1, s2, s3⟩ := update_config_laddr_shift w a cfg cfg' hpos hc
  obtain ⟨s4, s5, s6⟩ := update_app_toml_pos a app app' hpos ha
  rw [h1000] at s1 s2 s3 s4 s5 s6
  exact ⟨rfl, s1, s2, s3, s4, s5, s6⟩

/-- Witness for C9: the concrete fresh run with the flag absent shifts the
RPC listen address by the default `1000`. -/
theorem default_port_offset_shifts_w :
    ∃ cfg' app', full_init_config worldA argsNoFlag cfgA appA = some (cfg', app') ∧
      increment_port cfgA.rpc_laddr 1000 = some cfg'.rpc_laddr := by
  rcases hE : full_init_config worldA argsNoFlag cfgA appA with _ | pr
  · exact absurd hE (by decide)
  · obtain ⟨cfg', app'⟩ := pr
    exact ⟨cfg', app', rfl,
      (default_port_offset_shifts worldA argsNoFlag cfgA appA cfg' app' rfl hE).2.1⟩

/-- Counterexample to C3 as stated: the port shifter is not total.  On an
address containing two occurrences of `"://"` the two-variable unpacking of
`addr.split("://")` raises an uncaught `ValueError` (modelled as `none`)
instead of returning a string. -/
theorem increment_port_raises_cex : increment_port "tcp://host://x:1".data 5 = none := by
  decide

/-- Claim C3 (amended): on every address containing at most one occurrence
of `"://"` the port shifter is total — it always returns a string — and
whenever the port segment is not a valid integer it returns the
prefix-normalized original address unchanged (which, with at most one
scheme separator, is the original address itself).  The invalid-port cases
are stated exhaustively, both without a scheme prefix (second conjunct) and
with one (third conjunct): either the remainder has no colon at all, or the
segment after its last colon fails Python `int()`.  (Addresses with two or
more `"://"` occurrences instead make the function raise `ValueError`.) -/
theorem increment_port_total_single_scheme (addr : PyStr) (off : Int)
    (h : (splitScheme [] addr).length ≤ 2) :
    (increment_port addr off).isSome = true ∧
      (hasSchemeSep addr = false →
        (rsplitChar ':' addr = none ∨
          ∃ host port, rsplitChar ':' addr = some (host, port) ∧ pyInt? port = none) →
        increment_port addr off = some addr) ∧
      (∀ p rest, splitScheme [] addr = [p, rest] →
        (rsplitChar ':' rest = none ∨
          ∃ host port, rsplitChar ':' rest = some (host, port) ∧ pyInt? port = none) →
        increment_port addr off = some addr) := by
  by_cases he : addr = [] ∨ off = 0
  · unfold increment_port
    rw [if_pos he]
    exact ⟨rfl, fun _ _ => rfl, fun _ _ _ _ => rfl⟩
  · refine ⟨?_, ?_, ?_⟩
    · unfold increment_port
      rw [if_neg he]
      by_cases hs : hasSchemeSep addr = true
      · have hlen := splitScheme_len2 addr hs []
        have hlen2 : (splitScheme [] addr).length = 2 := le_antisymm h hlen
        rcases List.length_eq_two.mp hlen2 with ⟨p, q, hpq⟩
        simp only [hs, if_true, hpq]
        cases hr : rsplitChar ':' q with
        | none => simp
        | some pr =>
          obtain ⟨hst, pt⟩ := pr
          cases hi : pyInt? pt <;> simp [hi]
      · have hs' : hasSchemeSep addr = false := by
          revert hs
          cases hasSchemeSep addr <;> simp
        simp only [hs', Bool.false_eq_true, if_false]
        cases hr : rsplitChar ':' addr with
        | none => simp
        | some pr =>
          obtain ⟨hst, pt⟩ := pr
          cases hi : pyInt? pt <;> simp [hi]
    · intro hs' hinv
      unfold increment_port
      rw [if_neg he]
      simp only [hs', Bool.false_eq_true, if_false]
      rcases hinv with hr | ⟨host, port, hr, hp⟩
      · simp [hr]
      · simp [hr, hp]
    · intro p rest hsplit hinv
      have hs : hasSchemeSep addr = true := by
        by_contra hs
        have hs' : hasSchemeSep addr = false := by
          revert hs
          cases hasSchemeSep addr <;> simp
        rw [splitScheme_no_sep addr hs' []] at hsplit
        simp at hsplit
      have haddr : addr = p ++ ':' :: '/' :: '/' :: rest :=
        splitScheme_reassemble addr p rest hsplit
      unfold increment_port
      rw [if_neg he]
      simp only [hs, if_true, hsplit]
      rcases hinv with hr | ⟨host, port, hr, hp⟩
      · simp only [hr]
        rw [haddr]
        simp
      · simp only [hr, hp]
        rw [haddr]
        simp

/-- Witness for the amended C3: an address with a scheme prefix and a
non-numeric port segment passes through the shifter unchanged. -/
theorem increment_port_total_single_scheme_w :
    increment_port "tcp://host:abc".data 250 = some "tcp://host:abc".data :=
  (increment_port_total_single_scheme "tcp://host:abc".data 250 (by decide)).2.2
    "tcp".data "host:abc".data (by decide)
    (Or.inr ⟨"host".data, "abc".data, by decide, by decide⟩)

/-- Counterexample to C4 as stated: `"07"` is a valid numeric port segment
(Python `int("07") == 7`), yet shifting `host:07` by `1` and back by `-1`
yields `host:7`, not the original address — the round trip fails on
non-canonical port spellings. -/
theorem increment_port_roundtrip_cex :
    pyInt? "07".data = some 7 ∧
      increment_port "host:07".data 1 = some "host:8".data ∧
      increment_port "host:8".data (-1) = some "host:7".data ∧
      ("host:7".data : PyStr) ≠ "host:07".data := by
  decide

/-- Claim C4 (amended): the round trip `shift(shift(a, n), -n) = a` holds
for every integer `n` on every address whose port segment is the canonical
decimal spelling of an integer, provided the scheme separator `"://"`
occurs nowhere outside the (optional) scheme prefix boundary. -/
theorem increment_port_roundtrip_canonical (opfx : Option PyStr) (host : PyStr) (v n : Int)
    (h1 : ∀ p, opfx = some p → hasSchemeSep p = false)
    (h2 : hasSchemeSep host = false) :
    ∃ b, increment_port (mkAddr opfx host v) n = some b ∧
      increment_port b (-n) = some (mkAddr opfx host v) := by
  by_cases hn : n = 0
  · subst hn
    refine ⟨mkAddr opfx host v, increment_port_zero _, ?_⟩
    rw [neg_zero]
    exact increment_port_zero _
  · refine ⟨mkAddr opfx host (v + n), increment_port_mkAddr opfx host v n hn h1 h2, ?_⟩
    rw [increment_port_mkAddr opfx host (v + n) (-n) (neg_ne_zero.mpr hn) h1 h2,
      add_neg_cancel_right]

/-- Witness for the amended C4: round trip on `tcp://0.0.0.0:26657` with
offset `1000`. -/
theorem increment_port_roundtrip_canonical_w :
    ∃ b, increment_port (mkAddr (some "tcp".data) "0.0.0.0".data 26657) 1000 = some b ∧
      increment_port b (-1000) = some (mkAddr (some "tcp".data) "0.0.0.0".data 26657) :=
  increment_port_roundtrip_canonical (some "tcp".data) "0.0.0.0".data 26657 1000
    (by intro p hp; injection hp with hp2; subst hp2; decide) (by decide)

/-- Witness for C10: a concrete run with the state-sync toggle off persists
a disabled state-sync section with an empty server list. -/
theorem statesync_cleared_when_not_requested_w :
    ∃ cfg', update_config_toml worldA
        { argsA with state_sync_enable := false } cfgA = some cfg' ∧
      cfg'.statesync_enable = false ∧ cfg'.statesync_rpc_servers = [] := by
  rcases hE : update_config_toml worldA { argsA with state_sync_enable := false } cfgA with _ | cfg'
  · exact absurd hE (by decide)
  · exact ⟨cfg', rfl, statesync_cleared_when_not_requested worldA
      { argsA with state_sync_enable := false } cfgA cfg' rfl hE⟩

end Gaia

